import Mathlib

/-!
# Verification of the Faucet worker supervisor and load balancer

Shallow embedding of `src/worker.rs` and `src/load_balancing/mod.rs`:
the worker-process supervisor (spawn, crash-restart, teardown), the worker
pool, strategy-token parsing and the load-balancer façade.

The supervision loop of `spawn_worker_task` together with the shared stop
flag and the child-process lifecycle is modelled as a small-step transition
system: each program point of the Rust task body is a `Pc` value, each
atomic event (a stop-flag load, a `wait` completing, a `spawn_process`
call, the owner's `Drop` storing the flag, the child exiting on its own)
is an `Action`, and `step` gives the successor state when the action is
enabled. Runs are folds of `step` over action lists, so every concrete
trace evaluates.
-/

deriving instance DecidableEq for Except

namespace Faucet

/-- Error type of the crate (`FaucetError` lives outside the two given
source files; only the shape needed here is modelled: some error value). -/
inductive FaucetError where
  | unknown : String → FaucetError
  | io : FaucetError
deriving DecidableEq, Repr

/-- `FaucetResult<T>` from the crate. -/
abbrev FaucetResult (α : Type) := Except FaucetError α

/-- `WorkerType` enum from `src/worker.rs` lines 11-15. -/
inductive WorkerType where
  | Plumber
  | Shiny
deriving DecidableEq, Repr

/-- A socket address (`std::net::SocketAddr`): ip plus port. -/
structure SocketAddr where
  ip : Nat
  port : Nat
deriving DecidableEq, Repr

/-- Program points of the task body spawned by `spawn_worker_task`
(`src/worker.rs` lines 128-141). -/
inductive Pc where
  /-- about to run the initial `spawn_process` (line 130) -/
  | init
  /-- top of the loop: about to load the stop flag (line 133) -/
  | checkStop
  /-- suspended in `child.wait().await` (line 137) -/
  | waiting
  /-- after the wait returned: about to respawn (line 139) -/
  | respawn
  /-- the task has returned -/
  | done
deriving DecidableEq, Repr

/-- State of one Worker's supervisor system: the shared stop flag, the
task's program point, the `child` variable (generation number of the held
handle) and whether that OS process is still running, plus event logs:
every generation ever spawned (in order), how many spawns happened while
the stop flag was already true, every generation forcibly killed by
`kill_on_drop`, and the task's result once it returned. -/
structure SysState where
  stop : Bool
  pc : Pc
  child : Option Nat
  childRunning : Bool
  nextGen : Nat
  spawned : List Nat
  spawnedAfterStop : Nat
  killed : List Nat
  result : Option (FaucetResult Unit)
deriving DecidableEq, Repr

/-- Atomic events of the supervisor system. -/
inductive Action where
  /-- the initial `spawn_process` at line 130 returns, succeeding iff `ok` -/
  | initSpawn (ok : Bool)
  /-- the loop-top stop-flag load at line 133 (returns `Ok(())` if set) -/
  | check
  /-- environment: the running child process exits on its own -/
  | childExit
  /-- `child.wait().await` at line 137 returns `Ok(status)` -/
  | waitReturn
  /-- `child.wait().await` at line 137 returns an error -/
  | waitErr
  /-- the respawning `spawn_process` at line 139 returns, succeeding iff `ok` -/
  | respawnStep (ok : Bool)
  /-- `Worker::drop` (line 160) stores `true` into the shared stop flag -/
  | setStop
deriving DecidableEq, Repr

/-- Dropping the held `Child` handle: with `.kill_on_drop(true)`
(`src/worker.rs` lines 71, 93) the OS process is forcibly killed if it is
still running at that moment. -/
def dropHeld (s : SysState) : SysState :=
  { s with
    child := none
    childRunning := false
    killed := if s.childRunning then s.killed ++ s.child.toList else s.killed }

/-- A successful `spawn_process`: a fresh generation starts running and is
bound to the `child` variable (the previous handle, if any, was already
dead or dropped at every call site). -/
def spawnChild (s : SysState) : SysState :=
  { s with
    child := some s.nextGen
    childRunning := true
    nextGen := s.nextGen + 1
    spawned := s.spawned ++ [s.nextGen]
    spawnedAfterStop :=
      if s.stop then s.spawnedAfterStop + 1 else s.spawnedAfterStop }

/-- One atomic step of the supervisor system; `none` when the action is
not enabled in `s`. Mirrors `src/worker.rs` lines 128-141 and 158-162. -/
def step (s : SysState) (a : Action) : Option SysState :=
  match a with
  | .setStop => some { s with stop := true }
  | .childExit =>
    if s.childRunning then some { s with childRunning := false } else none
  | .initSpawn ok =>
    if s.pc = .init then
      if ok then
        some { spawnChild s with pc := .checkStop }
      else
        some { s with pc := .done, result := some (.error .io) }
    else none
  | .check =>
    if s.pc = .checkStop then
      if s.stop then
        some { dropHeld s with pc := .done, result := some (.ok ()) }
      else
        some { s with pc := .waiting }
    else none
  | .waitReturn =>
    if s.pc = .waiting then
      if s.childRunning then none
      else some { s with pc := .respawn }
    else none
  | .waitErr =>
    if s.pc = .waiting then
      some { dropHeld s with pc := .done, result := some (.error .io) }
    else none
  | .respawnStep ok =>
    if s.pc = .respawn then
      if ok then
        some { spawnChild s with pc := .checkStop }
      else
        some { dropHeld s with pc := .done, result := some (.error .io) }
    else none

/-- State of a fresh supervisor system: flag `false` (line 146), task at
its initial spawn, nothing spawned or killed yet. -/
def initSys : SysState :=
  { stop := false
    pc := .init
    child := none
    childRunning := false
    nextGen := 0
    spawned := []
    spawnedAfterStop := 0
    killed := []
    result := none }

/-- Run a list of actions from a state; fails if any action is disabled. -/
def run (s : SysState) : List Action → Option SysState
  | [] => some s
  | a :: rest =>
    match step s a with
    | none => none
    | some s' => run s' rest

/-- Run a list of actions from the fresh supervisor state. -/
def runInit (acts : List Action) : Option SysState :=
  run initSys acts

/-- `get_available_socket` (`src/worker.rs` lines 115-120): bind a
throwaway listener on `127.0.0.1:0` and read back its ephemeral address.
The OS outcome is the oracle argument; the function just propagates it,
converting the error (`map_err(Into::into)`). -/
def get_available_socket (osResult : FaucetResult SocketAddr) :
    FaucetResult SocketAddr :=
  match osResult with
  | .ok addr => .ok addr
  | .error e => .error e

/-- `Worker` struct (`src/worker.rs` lines 108-114): the shared stop flag
and the supervising task are both carried by the supervisor system state
`sys` (`sys.stop` is the flag), plus the reserved socket address. -/
structure Worker where
  sys : SysState
  socket_addr : SocketAddr
deriving DecidableEq, Repr

/-- `Worker::new` (`src/worker.rs` lines 145-155): flag starts `false`,
the port reservation result is propagated with `?`, and the supervising
task is spawned — `tokio::spawn` returns immediately, so the task body
(including its initial `spawn_process`) has not run yet: the returned
system state is `initSys`. -/
def Worker.new (portRes : FaucetResult SocketAddr) : FaucetResult Worker :=
  match get_available_socket portRes with
  | .error e => .error e
  | .ok socket_addr => .ok { sys := initSys, socket_addr := socket_addr }

/-- `Drop for Worker` (`src/worker.rs` lines 158-162): store `true` into
the shared stop flag; nothing else. -/
def Worker.drop (w : Worker) : Worker :=
  { w with sys := { w.sys with stop := true } }

/-- `Workers` struct (`src/worker.rs` lines 164-168). -/
structure Workers where
  workers : List Worker
  worker_type : WorkerType
  workdir : String

/-- `Workers::new` (`src/worker.rs` lines 171-178). -/
def Workers.new (worker_type : WorkerType) (workdir : String) : Workers :=
  { workers := [], worker_type := worker_type, workdir := workdir }

/-- The `for _ in 0..n` loop of `Workers::spawn`: `env i` is the OS
outcome of the i-th port reservation of this call. Returns the final
worker list and the error the `?` propagated, if any; on error the
workers pushed so far stay in the list. -/
def spawnLoop (env : Nat → FaucetResult SocketAddr) :
    Nat → Nat → List Worker → List Worker × Option FaucetError
  | _, 0, acc => (acc, none)
  | i, k + 1, acc =>
    match Worker.new (env i) with
    | .ok wk => spawnLoop env (i + 1) k (acc ++ [wk])
    | .error e => (acc, some e)

/-- `Workers::spawn` (`src/worker.rs` lines 179-185): push `n` new
Workers; `?` on each `Worker::new`. The mutated pool is returned together
with the call's result (`none` = `Ok(())`). -/
def Workers.spawn (w : Workers) (env : Nat → FaucetResult SocketAddr)
    (n : Nat) : Workers × Option FaucetError :=
  let r := spawnLoop env 0 n w.workers
  ({ w with workers := r.1 }, r.2)

/-- `Workers::get_socket_addrs` (`src/worker.rs` lines 186-191). -/
def Workers.get_socket_addrs (w : Workers) : List SocketAddr :=
  w.workers.map Worker.socket_addr

/-- `Strategy` enum (`src/load_balancing/mod.rs` lines 25-29). -/
inductive Strategy where
  | RoundRobin
  | IpHash
deriving DecidableEq, Repr

/-- `FromStr for Strategy` (`src/load_balancing/mod.rs` lines 31-40):
exact literal match, any other token is the error `"invalid strategy"`. -/
def Strategy.from_str (s : String) : Except String Strategy :=
  if s = "round_robin" then .ok .RoundRobin
  else if s = "ip_hash" then .ok .IpHash
  else .error "invalid strategy"

/-- A client IP address (`std::net::IpAddr`), abstract. -/
structure IpAddr where
  val : Nat
deriving DecidableEq, Repr

/-- Modelled from the spec: `Client` (`src/client.rs`, not under `src/`)
is an opaque handle identifying one backend's network address. -/
structure Client where
  addr : SocketAddr
deriving DecidableEq, Repr

/-- Modelled from the spec: `IpExtractor` (`src/load_balancing/ip_extractor.rs`,
not under `src/`) is a small copyable value; its behaviour is not needed
by the claims below. -/
structure IpExtractor where
  trustProxy : Bool
deriving DecidableEq, Repr

/-- `LoadBalancer` struct (`src/load_balancing/mod.rs` lines 44-47): the
boxed strategy is modelled by its one capability, `entry : ip → Client`
(the trait method at line 22 returns a `Client`, not a `Result`). -/
structure LoadBalancer where
  strategy : IpAddr → Client
  extractor : IpExtractor

/-- `LoadBalancer::new` (`src/load_balancing/mod.rs` lines 50-63): the
match builds the strategy; `RoundRobin::new`/`IpHash::new` live outside
the given sources, so their results (`?`-propagated) are the oracle
arguments `roundRobinNew`/`ipHashNew`. -/
def LoadBalancer.new (strategy : Strategy) (extractor : IpExtractor)
    (roundRobinNew ipHashNew : FaucetResult (IpAddr → Client)) :
    FaucetResult LoadBalancer :=
  match (match strategy with
         | .RoundRobin => roundRobinNew
         | .IpHash => ipHashNew) with
  | .error e => .error e
  | .ok strat => .ok { strategy := strat, extractor := extractor }

/-- `LoadBalancer::get_client` (`src/load_balancing/mod.rs` lines 64-66):
`Ok(self.strategy.entry(ip).await)`. -/
def LoadBalancer.get_client (lb : LoadBalancer) (ip : IpAddr) :
    FaucetResult Client :=
  .ok (lb.strategy ip)

/-- How many more `spawn_process` calls the task can still reach once the
stop flag is `true`, as a function of its program point. -/
def budget : Pc → Nat
  | .init => 1
  | .checkStop => 0
  | .waiting => 1
  | .respawn => 1
  | .done => 0

/-- Invariant bounding spawns that happen after the stop flag is set. -/
def Inv (s : SysState) : Prop :=
  (s.stop = true → s.spawnedAfterStop + budget s.pc ≤ 1) ∧
  (s.stop = false → s.spawnedAfterStop = 0)

/-- State reached by `[.initSpawn true, .check, .setStop]`: the owner
dropped the Worker while the task is suspended in `wait` on a running
child. -/
def stWaitStopped : SysState :=
  { stop := true, pc := .waiting, child := some 0, childRunning := true
    nextGen := 1, spawned := [0], spawnedAfterStop := 0, killed := []
    result := none }

/-- State reached by `[.initSpawn true, .check, .setStop, .childExit,
.waitReturn]`: the stopped task is about to respawn. -/
def stRespawnStopped : SysState :=
  { stop := true, pc := .respawn, child := some 0, childRunning := false
    nextGen := 1, spawned := [0], spawnedAfterStop := 0, killed := []
    result := none }

/-- State reached by `[.initSpawn true, .check, .setStop, .childExit,
.waitReturn, .respawnStep true]`: a second subprocess was spawned after
the stop flag became true. -/
def stAfterExtraSpawn : SysState :=
  { stop := true, pc := .checkStop, child := some 1, childRunning := true
    nextGen := 2, spawned := [0, 1], spawnedAfterStop := 1, killed := []
    result := none }

/-- State reached by `[.initSpawn true, .check, .childExit, .waitReturn,
.respawnStep false]`: a single respawn failure ended the task with an
error. -/
def stDoneErr : SysState :=
  { stop := false, pc := .done, child := none, childRunning := false
    nextGen := 1, spawned := [0], spawnedAfterStop := 0, killed := []
    result := some (.error .io) }

/-- State of the task after its initial `spawn_process` fails. -/
def stInitFail : SysState :=
  { stop := false, pc := .done, child := none, childRunning := false
    nextGen := 0, spawned := [], spawnedAfterStop := 0, killed := []
    result := some (.error .io) }

/-- State after the stopped task's loop-top check finally fires in
`stAfterExtraSpawn`: the extra child is killed on handle drop and the
task returns `Ok(())`. -/
def stKilledExtra : SysState :=
  { stop := true, pc := .done, child := none, childRunning := false
    nextGen := 2, spawned := [0, 1], spawnedAfterStop := 1, killed := [1]
    result := some (.ok ()) }

/-- State after a failing respawn in `stRespawnStopped`. -/
def stDoneErrStopped : SysState :=
  { stop := true, pc := .done, child := none, childRunning := false
    nextGen := 1, spawned := [0], spawnedAfterStop := 0, killed := []
    result := some (.error .io) }

/-- The fresh supervisor state right after its owner was dropped. -/
def stInitStopped : SysState :=
  { stop := true, pc := .init, child := none, childRunning := false
    nextGen := 0, spawned := [], spawnedAfterStop := 0, killed := []
    result := none }

/-- Port-reservation oracle where every reservation succeeds. -/
def envAllOk : Nat → FaucetResult SocketAddr :=
  fun j => .ok { ip := 0, port := 7000 + j }

/-- Port-reservation oracle succeeding once, then failing. -/
def envFailAt1 : Nat → FaucetResult SocketAddr :=
  fun j => if j = 0 then .ok { ip := 0, port := 7000 } else .error .io

/-- A concrete fresh Plumber pool. -/
def poolA : Workers := Workers.new .Plumber "app"

/-- Only `setStop` ever raises the stop flag; every step preserves a set
flag. -/
theorem step_stop_mono (s s' : SysState) (a : Action)
    (h : step s a = some s') (hs : s.stop = true) : s'.stop = true := by
  cases a <;> simp only [step] at h <;>
    (repeat' split at h) <;>
    (try exact Option.noConfusion h) <;>
    (injection h with h; subst h; simp_all [spawnChild, dropHeld])

/-- A step changes the stop flag only if it is the owner's `setStop`, and
then only from `false` to `true`. -/
theorem step_stop_change (s s' : SysState) (a : Action)
    (h : step s a = some s') (hne : s'.stop ≠ s.stop) :
    a = .setStop ∧ s.stop = false ∧ s'.stop = true := by
  cases a <;> simp only [step] at h <;>
    (repeat' split at h) <;>
    (try exact Option.noConfusion h) <;>
    (injection h with h; subst h; simp_all [spawnChild, dropHeld])

/-- The spawn budget never exceeds one. -/
theorem budget_le_one (p : Pc) : budget p ≤ 1 := by
  cases p <;> simp [budget]

/-- The fresh supervisor state satisfies the spawn-budget invariant. -/
theorem inv_initSys : Inv initSys := by
  constructor <;> intro h <;> simp_all [initSys, Inv, budget]

/-- Each step preserves the spawn-budget invariant. -/
theorem inv_step (s s' : SysState) (a : Action)
    (h : step s a = some s') (hi : Inv s) : Inv s' := by
  obtain ⟨h1, h2⟩ := hi
  have hble := budget_le_one s.pc
  cases a <;> simp only [step] at h <;>
    (repeat' split at h) <;>
    (try exact Option.noConfusion h) <;>
    (injection h with h; subst h) <;>
    constructor <;> intro hst <;>
    cases hb : s.stop <;>
    simp_all [spawnChild, dropHeld, budget]

/-- Runs preserve the spawn-budget invariant. -/
theorem inv_run (acts : List Action) : ∀ s0 s : SysState,
    Inv s0 → run s0 acts = some s → Inv s := by
  induction acts with
  | nil =>
    intro s0 s hi h
    simp only [run, Option.some.injEq] at h
    exact h ▸ hi
  | cons a rest ih =>
    intro s0 s hi h
    simp only [run] at h
    cases hs : step s0 a with
    | none => rw [hs] at h; exact Option.noConfusion h
    | some s1 =>
      rw [hs] at h
      exact ih s1 s (inv_step s0 s1 a hs hi) h

/-- In any run of the supervisor from its fresh state, at most one
subprocess is spawned after the stop flag is set. -/
theorem spawnedAfterStop_le_one (acts : List Action) (s : SysState)
    (h : runInit acts = some s) : s.spawnedAfterStop ≤ 1 := by
  obtain ⟨h1, h2⟩ := inv_run acts initSys s inv_initSys h
  cases hst : s.stop
  · simp [h2 hst]
  · have := h1 hst
    omega

/-- While the task is suspended in `wait` on a running child, any run
that contains neither the child's own exit nor a wait error leaves the
task waiting, the child running, and kills nothing. -/
theorem waiting_persist (acts : List Action) : ∀ s s' : SysState,
    s.pc = .waiting → s.childRunning = true →
    (∀ a ∈ acts, a ≠ Action.childExit ∧ a ≠ Action.waitErr) →
    run s acts = some s' →
    s'.killed = s.killed ∧ s'.childRunning = true ∧ s'.pc = .waiting := by
  induction acts with
  | nil =>
    intro s s' hpc hr _ h
    simp only [run, Option.some.injEq] at h
    subst h
    exact ⟨rfl, hr, hpc⟩
  | cons a rest ih =>
    intro s s' hpc hr hallow h
    obtain ⟨hne1, hne2⟩ := hallow a (List.mem_cons_self a rest)
    simp only [run] at h
    cases a with
    | initSpawn ok => simp [step, hpc] at h
    | check => simp [step, hpc] at h
    | childExit => exact absurd rfl hne1
    | waitReturn => simp [step, hpc, hr] at h
    | waitErr => exact absurd rfl hne2
    | respawnStep ok => simp [step, hpc] at h
    | setStop =>
      simp only [step] at h
      have hrec := ih { s with stop := true } s' (by simp [hpc])
        (by simp [hr]) (fun b hb => hallow b (List.mem_cons_of_mem _ hb)) h
      simpa using hrec

/-- C7: parsing a strategy configuration token succeeds exactly for the
literal strings `"round_robin"` (yielding `RoundRobin`) and `"ip_hash"`
(yielding `IpHash`); every other input string returns the configuration
error `"invalid strategy"`. -/
theorem strategy_from_str_exact (s : String) :
    (Strategy.from_str s = .ok .RoundRobin ↔ s = "round_robin") ∧
    (Strategy.from_str s = .ok .IpHash ↔ s = "ip_hash") ∧
    (s ≠ "round_robin" → s ≠ "ip_hash" →
      Strategy.from_str s = .error "invalid strategy") := by
  unfold Strategy.from_str
  by_cases h1 : s = "round_robin" <;> by_cases h2 : s = "ip_hash" <;>
    simp [h1, h2]

/-- Witness for C7 at the concrete tokens of the spec's scenarios. -/
theorem strategy_from_str_exact_witness :
    Strategy.from_str "round_robin" = .ok .RoundRobin ∧
    Strategy.from_str "ip_hash" = .ok .IpHash ∧
    Strategy.from_str "bogus" = .error "invalid strategy" :=
  ⟨(strategy_from_str_exact "round_robin").1.mpr rfl,
   (strategy_from_str_exact "ip_hash").2.1.mpr rfl,
   (strategy_from_str_exact "bogus").2.2 (by decide) (by decide)⟩

/-- C8: for every successfully constructed LoadBalancer and every ip,
`get_client ip` is an `Ok` value delegating to the strategy; it never
fails on its own. -/
theorem load_balancer_get_client_ok (st : Strategy) (ext : IpExtractor)
    (rrNew ihNew : FaucetResult (IpAddr → Client)) (lb : LoadBalancer)
    (h : LoadBalancer.new st ext rrNew ihNew = .ok lb) (ip : IpAddr) :
    (lb.get_client ip).isOk = true ∧
    ∀ e : FaucetError, lb.get_client ip ≠ .error e := by
  exact ⟨rfl, fun e he => by cases he⟩

/-- Witness for C8: a concrete RoundRobin LoadBalancer over one backend. -/
theorem load_balancer_get_client_ok_witness :
    ((LoadBalancer.mk (fun _ => ⟨⟨0, 9000⟩⟩) ⟨false⟩).get_client
        ⟨7⟩).isOk = true ∧
    ∀ e : FaucetError,
      (LoadBalancer.mk (fun _ => ⟨⟨0, 9000⟩⟩) ⟨false⟩).get_client ⟨7⟩ ≠
        .error e :=
  load_balancer_get_client_ok .RoundRobin ⟨false⟩
    (.ok (fun _ => ⟨⟨0, 9000⟩⟩)) (.ok (fun _ => ⟨⟨0, 9000⟩⟩))
    (LoadBalancer.mk (fun _ => ⟨⟨0, 9000⟩⟩) ⟨false⟩) rfl ⟨7⟩

/-- C9: `get_socket_addrs` returns one socket address per Worker, the
i-th address being the i-th spawned Worker's address (spawn order); being
a pure function of the pool (`&self` in the source), it does not modify
it. -/
theorem get_socket_addrs_spec (w : Workers) (i : Nat) :
    w.get_socket_addrs.length = w.workers.length ∧
    w.get_socket_addrs[i]? = (w.workers[i]?).map Worker.socket_addr := by
  constructor
  · simp [Workers.get_socket_addrs]
  · simp [Workers.get_socket_addrs]

/-- C10: a fresh pool has no Workers, its address list is empty, and
`spawn(0)` succeeds leaving the pool unchanged. -/
theorem workers_new_empty_spawn_zero (wt : WorkerType) (wd : String)
    (w : Workers) (env : Nat → FaucetResult SocketAddr) :
    (Workers.new wt wd).workers = [] ∧
    (Workers.new wt wd).get_socket_addrs = [] ∧
    Workers.spawn w env 0 = (w, none) := by
  refine ⟨rfl, rfl, rfl⟩

/-- Taking the length of the left part of an append recovers it. -/
theorem take_append_len {α : Type} (l₁ l₂ : List α) :
    (l₁ ++ l₂).take l₁.length = l₁ := by
  induction l₁ with
  | nil => simp
  | cons x xs ih => simp [ih]

/-- When every port reservation of the batch succeeds, the spawn loop
appends one Worker per iteration and reports no error. -/
theorem spawnLoop_all_ok (env : Nat → FaucetResult SocketAddr) :
    ∀ (n i : Nat) (acc : List Worker),
      (∀ j, j < n → ∃ a, env (i + j) = .ok a) →
      ∃ newl : List Worker,
        spawnLoop env i n acc = (acc ++ newl, none) ∧ newl.length = n := by
  intro n
  induction n with
  | zero =>
    intro i acc _
    exact ⟨[], by simp [spawnLoop], rfl⟩
  | succ k ih =>
    intro i acc h
    obtain ⟨a, ha⟩ := h 0 (Nat.succ_pos k)
    have ha' : env i = .ok a := by simpa using ha
    have hrest : ∀ j, j < k → ∃ b, env (i + 1 + j) = .ok b := by
      intro j hj
      obtain ⟨b, hb⟩ := h (j + 1) (by omega)
      exact ⟨b, by rwa [show i + (j + 1) = i + 1 + j by omega] at hb⟩
    obtain ⟨newl, hl, hlen⟩ :=
      ih (i + 1) (acc ++ [{ sys := initSys, socket_addr := a }]) hrest
    refine ⟨{ sys := initSys, socket_addr := a } :: newl, ?_, by simp [hlen]⟩
    have hstep : spawnLoop env i (k + 1) acc =
        spawnLoop env (i + 1) k
          (acc ++ [{ sys := initSys, socket_addr := a }]) := by
      simp [spawnLoop, ha', Worker.new, get_available_socket]
    rw [hstep, hl]
    simp

/-- When the k-th port reservation fails after k successes, the spawn
loop stops there, keeping the k Workers already pushed and reporting the
error. -/
theorem spawnLoop_err (env : Nat → FaucetResult SocketAddr)
    (e : FaucetError) :
    ∀ (k n i : Nat) (acc : List Worker),
      k < n → (∀ j, j < k → ∃ a, env (i + j) = .ok a) →
      env (i + k) = .error e →
      ∃ newl : List Worker,
        spawnLoop env i n acc = (acc ++ newl, some e) ∧ newl.length = k := by
  intro k
  induction k with
  | zero =>
    intro n i acc hk _ herr
    have herr' : env i = .error e := by simpa using herr
    cases n with
    | zero => omega
    | succ m =>
      refine ⟨[], ?_, rfl⟩
      simp [spawnLoop, herr', Worker.new, get_available_socket]
  | succ k' ih =>
    intro n i acc hk h herr
    cases n with
    | zero => omega
    | succ m =>
      obtain ⟨a, ha⟩ := h 0 (Nat.succ_pos k')
      have ha' : env i = .ok a := by simpa using ha
      have hrest : ∀ j, j < k' → ∃ b, env (i + 1 + j) = .ok b := by
        intro j hj
        obtain ⟨b, hb⟩ := h (j + 1) (by omega)
        exact ⟨b, by rwa [show i + (j + 1) = i + 1 + j by omega] at hb⟩
      have herr2 : env (i + 1 + k') = .error e := by
        rwa [show i + (k' + 1) = i + 1 + k' by omega] at herr
      obtain ⟨newl, hl, hlen⟩ :=
        ih m (i + 1) (acc ++ [{ sys := initSys, socket_addr := a }])
          (by omega) hrest herr2
      refine ⟨{ sys := initSys, socket_addr := a } :: newl, ?_, by simp [hlen]⟩
      have hstep : spawnLoop env i (m + 1) acc =
          spawnLoop env (i + 1) m
            (acc ++ [{ sys := initSys, socket_addr := a }]) := by
        simp [spawnLoop, ha', Worker.new, get_available_socket]
      rw [hstep, hl]
      simp

/-- C5: `Workers::spawn n` appends exactly n Workers when every
individual spawn succeeds; if the k-th spawn fails the call returns that
error and the k Workers already spawned remain appended (fail-fast, no
rollback). -/
theorem workers_spawn_fail_fast (w : Workers)
    (env : Nat → FaucetResult SocketAddr) (n k : Nat) (e : FaucetError) :
    ((∀ j, j < n → ∃ a, env j = .ok a) →
      (Workers.spawn w env n).2 = none ∧
      (Workers.spawn w env n).1.workers.length = w.workers.length + n ∧
      (Workers.spawn w env n).1.workers.take w.workers.length =
        w.workers) ∧
    (k < n → (∀ j, j < k → ∃ a, env j = .ok a) → env k = .error e →
      (Workers.spawn w env n).2 = some e ∧
      (Workers.spawn w env n).1.workers.length = w.workers.length + k ∧
      (Workers.spawn w env n).1.workers.take w.workers.length =
        w.workers) := by
  constructor
  · intro h
    obtain ⟨newl, hl, hlen⟩ := spawnLoop_all_ok env n 0 w.workers
      (fun j hj => by simpa using h j hj)
    refine ⟨?_, ?_, ?_⟩ <;>
      simp [Workers.spawn, hl, hlen, take_append_len]
  · intro hk h herr
    obtain ⟨newl, hl, hlen⟩ := spawnLoop_err env e k n 0 w.workers hk
      (fun j hj => by simpa using h j hj) (by simpa using herr)
    refine ⟨?_, ?_, ?_⟩ <;>
      simp [Workers.spawn, hl, hlen, take_append_len]

/-- Witness for C5: a batch of 2 over an all-succeeding oracle appends 2
Workers; over an oracle failing at the second reservation, the call
fails with that error and keeps the 1 Worker already spawned. -/
theorem workers_spawn_fail_fast_witness :
    ((Workers.spawn poolA envAllOk 2).2 = none ∧
      (Workers.spawn poolA envAllOk 2).1.workers.length =
        poolA.workers.length + 2 ∧
      (Workers.spawn poolA envAllOk 2).1.workers.take
        poolA.workers.length = poolA.workers) ∧
    ((Workers.spawn poolA envFailAt1 2).2 = some .io ∧
      (Workers.spawn poolA envFailAt1 2).1.workers.length =
        poolA.workers.length + 1 ∧
      (Workers.spawn poolA envFailAt1 2).1.workers.take
        poolA.workers.length = poolA.workers) :=
  ⟨(workers_spawn_fail_fast poolA envAllOk 2 0 .io).1
      (fun j _ => ⟨{ ip := 0, port := 7000 + j }, rfl⟩),
   (workers_spawn_fail_fast poolA envFailAt1 2 1 .io).2
      (by omega)
      (fun j hj => ⟨{ ip := 0, port := 7000 }, by
        have hj0 : j = 0 := by omega
        subst hj0
        rfl⟩)
      rfl⟩

/-- C6: a Worker's stop flag is false at construction, only the owner's
teardown (`Drop`, the `setStop` event) ever changes it, the change is
false-to-true, and every step preserves a set flag: the flag is monotone
and flips at most once. -/
theorem worker_stop_flag_monotone :
    (∀ (pr : FaucetResult SocketAddr) (w : Worker),
      Worker.new pr = .ok w → w.sys.stop = false) ∧
    (∀ w : Worker, (Worker.drop w).sys.stop = true ∧
      step w.sys .setStop = some (Worker.drop w).sys) ∧
    (∀ (s s' : SysState) (a : Action),
      step s a = some s' → s.stop = true → s'.stop = true) ∧
    (∀ (s s' : SysState) (a : Action),
      step s a = some s' → s'.stop ≠ s.stop →
      a = .setStop ∧ s.stop = false ∧ s'.stop = true) := by
  refine ⟨?_, ?_, ?_, ?_⟩
  · intro pr w h
    cases pr with
    | ok a =>
      simp only [Worker.new, get_available_socket, Except.ok.injEq] at h
      rw [← h]
      rfl
    | error e => simp [Worker.new, get_available_socket] at h
  · intro w
    exact ⟨rfl, rfl⟩
  · exact fun s s' a h hs => step_stop_mono s s' a h hs
  · exact fun s s' a h hne => step_stop_change s s' a h hne

/-- Witness for C6 at concrete states: a freshly built Worker, its
teardown, and a concrete monotone step. -/
theorem worker_stop_flag_monotone_witness :
    (Worker.mk initSys { ip := 0, port := 7000 }).sys.stop = false ∧
    (Worker.drop (Worker.mk initSys { ip := 0, port := 7000 })).sys.stop =
      true ∧
    stWaitStopped.stop = true ∧
    (Action.setStop = Action.setStop ∧ initSys.stop = false ∧
      stInitStopped.stop = true) :=
  ⟨worker_stop_flag_monotone.1 (.ok { ip := 0, port := 7000 })
      (Worker.mk initSys { ip := 0, port := 7000 }) rfl,
   (worker_stop_flag_monotone.2.1
      (Worker.mk initSys { ip := 0, port := 7000 })).1,
   worker_stop_flag_monotone.2.2.1 stWaitStopped stWaitStopped .setStop
      rfl rfl,
   worker_stop_flag_monotone.2.2.2 initSys stInitStopped .setStop rfl
      (by simp [initSys, stInitStopped])⟩

/-- Counterexample to C1: after `[.initSpawn true, .check, .setStop]` the
stop flag is true with one subprocess spawned; the exit of that
subprocess puts the task at the respawn point where the loop-top check is
not even enabled, and the subsequent respawn spawns a second subprocess —
a spawn strictly after the flag became true, with no stop check between
the exit and the respawn. -/
theorem supervisor_respawns_after_stop_cex :
    runInit [.initSpawn true, .check, .setStop] = some stWaitStopped ∧
    stWaitStopped.stop = true ∧
    stWaitStopped.spawned = [0] ∧
    runInit [.initSpawn true, .check, .setStop, .childExit, .waitReturn] =
      some stRespawnStopped ∧
    step stRespawnStopped .check = none ∧
    runInit [.initSpawn true, .check, .setStop, .childExit, .waitReturn,
      .respawnStep true] = some stAfterExtraSpawn ∧
    stAfterExtraSpawn.spawned = [0, 1] ∧
    stAfterExtraSpawn.spawnedAfterStop = 1 :=
  ⟨rfl, rfl, rfl, rfl, rfl, rfl, rfl, rfl⟩

/-- C1 (amended): the supervision loop checks the stop flag at the top of
each iteration, before waiting for the subprocess to exit; if the flag is
set at that check the loop exits without spawning. After an exit the loop
respawns without re-checking, so at most one subprocess can be spawned
after the flag becomes true, in every run from the fresh state. -/
theorem supervisor_stop_check_amended :
    (∀ s s' : SysState, s.pc = .checkStop → s.stop = true →
      step s .check = some s' →
      s'.pc = .done ∧ s'.spawned = s.spawned ∧
      s'.result = some (.ok ())) ∧
    (∀ (acts : List Action) (s : SysState),
      runInit acts = some s → s.spawnedAfterStop ≤ 1) := by
  constructor
  · intro s s' hpc hstop h
    simp only [step, hpc, hstop, reduceIte] at h
    injection h with h
    subst h
    simp [dropHeld]
  · exact spawnedAfterStop_le_one

/-- Witness for C1 (amended): the stopped loop's next check returns
without spawning and kills the extra child; the run that produced
`stAfterExtraSpawn` spawned exactly one subprocess after the flag was
set. -/
theorem supervisor_stop_check_amended_witness :
    (stKilledExtra.pc = .done ∧
      stKilledExtra.spawned = stAfterExtraSpawn.spawned ∧
      stKilledExtra.result = some (.ok ())) ∧
    stAfterExtraSpawn.spawnedAfterStop ≤ 1 :=
  ⟨supervisor_stop_check_amended.1 stAfterExtraSpawn stKilledExtra rfl rfl
      rfl,
   supervisor_stop_check_amended.2
      [.initSpawn true, .check, .setStop, .childExit, .waitReturn,
        .respawnStep true] stAfterExtraSpawn rfl⟩

/-- Counterexample to C2: a single failing respawn ends the supervision
loop with an error as the task's result; no retry is possible since no
respawn step is enabled in the finished state. -/
theorem supervisor_respawn_failure_abandons_cex :
    runInit [.initSpawn true, .check, .childExit, .waitReturn,
      .respawnStep false] = some stDoneErr ∧
    stDoneErr.pc = .done ∧
    stDoneErr.result = some (.error .io) ∧
    step stDoneErr (.respawnStep true) = none ∧
    step stDoneErr (.respawnStep false) = none :=
  ⟨rfl, rfl, rfl, rfl, rfl⟩

/-- C2 (amended): a failure to respawn terminates the supervision loop
immediately — the error is propagated as the task's result, nothing
further is spawned, and a finished task never spawns again. -/
theorem supervisor_respawn_failure_amended :
    (∀ s s' : SysState, s.pc = .respawn →
      step s (.respawnStep false) = some s' →
      s'.pc = .done ∧ s'.result = some (.error .io) ∧
      s'.spawned = s.spawned) ∧
    (∀ (s s' : SysState) (a : Action), s.pc = .done →
      step s a = some s' → s'.pc = .done ∧ s'.spawned = s.spawned) := by
  constructor
  · intro s s' hpc h
    simp only [step, hpc, Bool.false_eq_true, reduceIte] at h
    injection h with h
    subst h
    simp [dropHeld]
  · intro s s' a hpc h
    cases a with
    | initSpawn ok => simp [step, hpc] at h
    | check => simp [step, hpc] at h
    | childExit =>
      simp only [step] at h
      split at h
      · injection h with h
        subst h
        exact ⟨hpc, rfl⟩
      · exact Option.noConfusion h
    | waitReturn => simp [step, hpc] at h
    | waitErr => simp [step, hpc] at h
    | respawnStep ok => simp [step, hpc] at h
    | setStop =>
      injection h with h
      subst h
      exact ⟨hpc, rfl⟩

/-- Witness for C2 (amended): the concrete stopped respawn state and a
finished state stepped by `setStop`. -/
theorem supervisor_respawn_failure_amended_witness :
    (stDoneErrStopped.pc = .done ∧
      stDoneErrStopped.result = some (.error .io) ∧
      stDoneErrStopped.spawned = stRespawnStopped.spawned) ∧
    (stDoneErr.pc = .done ∧ stDoneErr.spawned = stDoneErr.spawned) :=
  ⟨supervisor_respawn_failure_amended.1 stRespawnStopped stDoneErrStopped
      rfl rfl,
   supervisor_respawn_failure_amended.2 stDoneErr
      { stDoneErr with stop := true } .setStop rfl rfl⟩

/-- Counterexample to C3: with a successful port reservation,
`Worker::new` returns `Ok` even though the initial process creation is
going to fail — the creation failure happens inside the asynchronously
spawned supervisor task and surfaces only as that task's result. -/
theorem worker_new_ignores_process_failure_cex :
    Worker.new (.ok { ip := 0, port := 5000 }) =
      .ok { sys := initSys, socket_addr := { ip := 0, port := 5000 } } ∧
    run initSys [.initSpawn false] = some stInitFail ∧
    stInitFail.result = some (.error .io) :=
  ⟨rfl, rfl, rfl⟩

/-- C3 (amended): `Worker::new` fails exactly when reserving the port
fails, propagating that error; when the reservation succeeds it returns
`Ok` unconditionally, and a failing initial process creation instead
terminates the supervisor task with the error as the task's result. -/
theorem worker_new_amended :
    (∀ e : FaucetError, Worker.new (.error e) = .error e) ∧
    (∀ a : SocketAddr,
      Worker.new (.ok a) = .ok { sys := initSys, socket_addr := a }) ∧
    (∀ s s' : SysState, s.pc = .init →
      step s (.initSpawn false) = some s' →
      s'.pc = .done ∧ s'.result = some (.error .io) ∧
      s'.spawned = s.spawned) := by
  refine ⟨fun e => rfl, fun a => rfl, ?_⟩
  intro s s' hpc h
  simp only [step, hpc, Bool.false_eq_true, reduceIte] at h
  injection h with h
  subst h
  exact ⟨rfl, rfl, rfl⟩

/-- Witness for C3 (amended) at concrete reservation outcomes and the
fresh task state. -/
theorem worker_new_amended_witness :
    Worker.new (.error .io) = .error .io ∧
    Worker.new (.ok { ip := 0, port := 7070 }) =
      .ok { sys := initSys, socket_addr := { ip := 0, port := 7070 } } ∧
    (stInitFail.pc = .done ∧ stInitFail.result = some (.error .io) ∧
      stInitFail.spawned = initSys.spawned) :=
  ⟨worker_new_amended.1 .io,
   worker_new_amended.2.1 { ip := 0, port := 7070 },
   worker_new_amended.2.2 initSys stInitFail rfl rfl⟩

/-- Counterexample to C4: after teardown (`setStop`) completed while the
task waits on a running child, the child is still running and nothing was
killed; every enabled step other than the child's own exit or a wait
error leaves it running and unkilled — the teardown terminated nothing,
and the child's own exit is an exit, not a forcible termination. -/
theorem worker_drop_no_kill_cex :
    runInit [.initSpawn true, .check, .setStop] = some stWaitStopped ∧
    stWaitStopped.childRunning = true ∧
    stWaitStopped.killed = [] ∧
    step stWaitStopped .setStop = some stWaitStopped ∧
    step stWaitStopped .check = none ∧
    step stWaitStopped .waitReturn = none ∧
    step stWaitStopped (.initSpawn true) = none ∧
    step stWaitStopped (.initSpawn false) = none ∧
    step stWaitStopped (.respawnStep true) = none ∧
    step stWaitStopped (.respawnStep false) = none ∧
    (step stWaitStopped .childExit).map SysState.killed = some [] ∧
    (step stWaitStopped .childExit).map SysState.childRunning =
      some false :=
  ⟨rfl, rfl, rfl, rfl, rfl, rfl, rfl, rfl, rfl, rfl, rfl, rfl⟩

/-- C4 (amended): tearing down a Worker only sets the stop flag — it
kills nothing and leaves the child's run state untouched. A still-running
child is forcibly killed (via kill-on-drop) only when the supervisor task
later drops its handle; while the task waits on a running child, no run
without the child's own exit or a wait error ever kills it. -/
theorem worker_drop_deferred_kill_amended :
    (∀ s s' : SysState, step s .setStop = some s' →
      s'.killed = s.killed ∧ s'.childRunning = s.childRunning ∧
      s'.pc = s.pc ∧ s'.stop = true) ∧
    (∀ (acts : List Action) (s s' : SysState), s.pc = .waiting →
      s.childRunning = true →
      (∀ a ∈ acts, a ≠ Action.childExit ∧ a ≠ Action.waitErr) →
      run s acts = some s' →
      s'.killed = s.killed ∧ s'.childRunning = true ∧
      s'.pc = .waiting) := by
  constructor
  · intro s s' h
    injection h with h
    subst h
    exact ⟨rfl, rfl, rfl, rfl⟩
  · exact fun acts s s' hpc hr hallow h =>
      waiting_persist acts s s' hpc hr hallow h

/-- Witness for C4 (amended): teardown of the waiting state changes only
the flag, and a post-teardown run consisting of another `setStop` leaves
the child running and unkilled. -/
theorem worker_drop_deferred_kill_amended_witness :
    (stWaitStopped.killed = stWaitStopped.killed ∧
      stWaitStopped.childRunning = stWaitStopped.childRunning ∧
      stWaitStopped.pc = stWaitStopped.pc ∧ stWaitStopped.stop = true) ∧
    (stWaitStopped.killed = stWaitStopped.killed ∧
      stWaitStopped.childRunning = true ∧ stWaitStopped.pc = .waiting) :=
  ⟨worker_drop_deferred_kill_amended.1 stWaitStopped stWaitStopped rfl,
   worker_drop_deferred_kill_amended.2 [.setStop] stWaitStopped
      stWaitStopped rfl rfl (by decide) rfl⟩

end Faucet
